import Mathlib

/-!
# Control-plane HTTP API (`api/api.go`)

A shallow embedding of the request handlers and of the error middleware that
`Server.Run` registers, with the engine, the document codecs and the
cancellation function taken as collaborators.  Handlers are state passing
functions over the server state and the per-request gin context.
-/

namespace Api

/-! ## Data model -/

/-- Raw bytes: a request body read by `ioutil.ReadAll`, or the output of an encoder. -/
abbrev Bytes := String

/-- Go `error` value; the only thing the handlers observe is the message `Error()`. -/
structure GoError where
  Error : String
deriving DecidableEq, Repr

/-- Modelled from the spec: the declaration of `lib.Status` is not part of `api.go`.
The two fields the handlers read are kept; the engine-defined fields are never
inspected by the handlers. -/
structure Status where
  Running : Bool
  ActiveVUs : Int
deriving DecidableEq, Repr

/-- Formatted aggregate sample produced by a sink. -/
abbrev Sample := String

/-- Modelled from the spec: the metric type is declared outside `api.go`; a
metric has a `Name` and a `Sample` that the handlers overwrite before encoding. -/
structure Metric where
  Name : String
  Sample : Sample
deriving DecidableEq, Repr

/-- Modelled from the spec: a sink is the capability `Format()`; the value it
returns when asked is the field `Format`. -/
structure Sink where
  Format : Sample
deriving DecidableEq, Repr

/-- Modelled from the spec: `lib.Info` is static metadata, only ever encoded. -/
structure Info where
  Data : String
deriving DecidableEq, Repr

/-- Modelled from the spec: the part of `lib.Engine` the handlers touch, its
`Status` and its `Metrics` mapping.  The mapping is a list of entries standing
for one enumeration of the Go map; the handlers are verified for every list,
hence for every iteration order. -/
structure Engine where
  Status : Status
  Metrics : List (Metric × Sink)
deriving DecidableEq, Repr

/-- Invocation of a collaborator that a handler makes: `s.Engine.Scale(vus)` or `s.Cancel()`. -/
inductive Call
  | Scale (vus : Int)
  | Cancel
deriving DecidableEq, Repr

/-- State of `Server`.  `Engine` and `Info` are the fields of the Go struct; the
field `Cancel context.CancelFunc` is represented by `Calls`, the log of the
invocations of `Engine.Scale` and `Cancel` made so far, oldest first. -/
structure Server where
  Engine : Engine
  Info : Info
  Calls : List Call
deriving DecidableEq, Repr

/-- Modelled from the spec: entry of the error envelope, declared outside `api.go`. -/
structure Error where
  Title : String
deriving DecidableEq, Repr

/-- Modelled from the spec: the error envelope, a list of `Error` entries. -/
structure ErrorResponse where
  Errors : List Error
deriving DecidableEq, Repr

/-- External collaborators of the handlers: the engine's `Scale`, the jsonapi
decoder and encoders, and `encoding/json`.  `Unmarshal data status` receives the
working copy of the status and yields the updated copy or an error. -/
structure Env where
  Scale : Int → Engine → Engine
  Unmarshal : Bytes → Status → Except GoError Status
  MarshalStatus : Status → Except GoError Bytes
  MarshalInfo : Info → Except GoError Bytes
  MarshalMetric : Metric → Except GoError Bytes
  MarshalMetrics : List Metric → Except GoError Bytes
  jsonMarshal : ErrorResponse → Bytes
  jsonNotFound : Bytes

/-! ## The gin context -/

/-- Response writer of gin: current status code, `Content-Type` header, and the
chunks written to the body so far. -/
structure ResponseWriter where
  status : Nat
  contentType : String
  body : List Bytes
deriving DecidableEq, Repr

/-- Per-request gin context: the response writer and the errors attached so far. -/
structure Context where
  Writer : ResponseWriter
  Errors : List GoError
deriving DecidableEq, Repr

/-- Context of a fresh request: status 200, nothing written, no error attached. -/
def Context.new : Context :=
  { Writer := { status := 200, contentType := "", body := [] }, Errors := [] }

/-- Method `c.Header("Content-Type", v)`. -/
def Context.Header (c : Context) (v : String) : Context :=
  { c with Writer := { c.Writer with contentType := v } }

/-- Method `c.Data(code, contentType, data)`: set the status, set the content
type when one is given, write the data. -/
def Context.Data (c : Context) (code : Nat) (ct : String) (data : Bytes) : Context :=
  { c with Writer :=
      { status := code
        contentType := if ct.length > 0 then ct else c.Writer.contentType
        body := c.Writer.body ++ [data] } }

/-- Method `c.AbortWithError(code, err)`: set the status and attach the error. -/
def Context.AbortWithError (c : Context) (code : Nat) (err : GoError) : Context :=
  { Writer := { c.Writer with status := code }, Errors := c.Errors ++ [err] }

/-- Function `errors.New`. -/
def errorsNew (msg : String) : GoError := { Error := msg }

/-- The package variable `contentType`. -/
def contentType : String := "application/vnd.api+json"

/-! ## Handlers registered by `Server.Run` -/

/-- Handler of `GET /ping`. -/
def getPing (s : Server) (c : Context) : Server × Context :=
  (s, c.Data 204 "" "")

/-- Handler of `GET /v1/info`. -/
def getInfo (env : Env) (s : Server) (c : Context) : Server × Context :=
  match env.MarshalInfo s.Info with
  | .error err => (s, c.AbortWithError 500 err)
  | .ok data => (s, c.Data 200 contentType data)

/-- Handler of `GET /v1/error`. -/
def getError (s : Server) (c : Context) : Server × Context :=
  (s, c.AbortWithError 500 (errorsNew "This is an error"))

/-- Handler of `GET /v1/status`. -/
def getStatus (env : Env) (s : Server) (c : Context) : Server × Context :=
  match env.MarshalStatus s.Engine.Status with
  | .error err => (s, c.AbortWithError 500 err)
  | .ok data => (s, c.Data 200 contentType data)

/-- Handler of `PATCH /v1/status`, statement by statement. -/
def patchStatus (env : Env) (body : Bytes) (s : Server) (c : Context) : Server × Context :=
  if !s.Engine.Status.Running then
    (s, c.AbortWithError 400 (errorsNew "Test is stopped"))
  else
    let status := s.Engine.Status
    let data := body
    match env.Unmarshal data status with
    | .error err => (s, c.AbortWithError 400 err)
    | .ok status =>
      let s1 : Server :=
        if status.ActiveVUs ≠ s.Engine.Status.ActiveVUs then
          { s with Engine := env.Scale status.ActiveVUs s.Engine,
                   Calls := s.Calls ++ [Call.Scale status.ActiveVUs] }
        else s
      let s2 : Server :=
        if !s1.Engine.Status.Running then
          { s1 with Calls := s1.Calls ++ [Call.Cancel] }
        else s1
      let s3 : Server := { s2 with Engine := { s2.Engine with Status := status } }
      match env.MarshalStatus s3.Engine.Status with
      | .error err => (s3, c.AbortWithError 500 err)
      | .ok data => (s3, c.Data 200 contentType data)

/-- Loop body of `GET /v1/metrics`: refresh the sample of every entry. -/
def refreshAll (ms : List (Metric × Sink)) : List Metric :=
  ms.foldl (fun metrics e => metrics ++ [{ e.1 with Sample := e.2.Format }]) []

/-- Handler of `GET /v1/metrics`. -/
def getMetrics (env : Env) (s : Server) (c : Context) : Server × Context :=
  let metrics := refreshAll s.Engine.Metrics
  match env.MarshalMetrics metrics with
  | .error err => (s, c.AbortWithError 500 err)
  | .ok data => (s, c.Data 200 contentType data)

/-- The loop of `GET /v1/metrics/:id` over the entries still to visit. -/
def findMetric (env : Env) (id : String) (c : Context) : List (Metric × Sink) → Context
  | [] => c.AbortWithError 404 (errorsNew "Metric not found")
  | (metric, sink) :: rest =>
    if metric.Name ≠ id then findMetric env id c rest
    else
      let metric := { metric with Sample := sink.Format }
      match env.MarshalMetric metric with
      | .error err => c.AbortWithError 500 err
      | .ok data => c.Data 200 contentType data

/-- Handler of `GET /v1/metrics/:id`. -/
def getMetric (env : Env) (id : String) (s : Server) (c : Context) : Server × Context :=
  (s, findMetric env id c s.Engine.Metrics)

/-- Handler of `router.NoRoute`. -/
def noRoute (env : Env) (s : Server) (c : Context) : Server × Context :=
  (s, c.Data 404 "application/json; charset=utf-8" env.jsonNotFound)

/-! ## Middleware and routing -/

/-- The loop of `jsonErrorsMiddleware` that builds the envelope from `c.Errors`. -/
def errorDocument (errs : List GoError) : ErrorResponse :=
  errs.foldl (fun errors err => { Errors := errors.Errors ++ [{ Title := err.Error }] })
    { Errors := [] }

/-- Function `jsonErrorsMiddleware`; `next` is the rest of the chain run by `c.Next()`. -/
def jsonErrorsMiddleware (env : Env) (next : Server → Context → Server × Context)
    (s : Server) (c : Context) : Server × Context :=
  let c := c.Header contentType
  let (s, c) := next s c
  if c.Errors.length > 0 then
    let errors := errorDocument c.Errors
    let data := env.jsonMarshal errors
    (s, c.Data c.Writer.status contentType data)
  else (s, c)

/-- Entry of the route table that the router selects for a request. -/
inductive Route
  | ping
  | info
  | error
  | getStatus
  | patchStatus
  | metrics
  | metric (id : String)
  | noRoute
deriving DecidableEq, Repr

/-- API request: the route it is matched to and its body. -/
structure Request where
  route : Route
  body : Bytes
deriving DecidableEq, Repr

/-- The route table built in `Server.Run`. -/
def handler (env : Env) (req : Request) : Server → Context → Server × Context :=
  match req.route with
  | .ping => getPing
  | .info => getInfo env
  | .error => getError
  | .getStatus => getStatus env
  | .patchStatus => patchStatus env req.body
  | .metrics => getMetrics env
  | .metric id => getMetric env id
  | .noRoute => noRoute env

/-- One request through the chain: error middleware, then the matched handler. -/
def serve (env : Env) (s : Server) (req : Request) : Server × Context :=
  jsonErrorsMiddleware env (handler env req) s Context.new

/-- Requests handled one after the other on the same server; the responses in order. -/
def serveAll (env : Env) : Server → List Request → Server × List Context
  | s, [] => (s, [])
  | s, req :: reqs =>
    let (s1, c) := serve env s req
    let (s2, cs) := serveAll env s1 reqs
    (s2, c :: cs)

/-- Number of `Cancel` invocations in a log. -/
def cancelCount (calls : List Call) : Nat := calls.count Call.Cancel

/-- Arguments of the `Scale` invocations in a log, in order. -/
def scaleArgs : List Call → List Int
  | [] => []
  | Call.Scale n :: cs => n :: scaleArgs cs
  | Call.Cancel :: cs => scaleArgs cs

/-- The server state after the comparison at line 77 and the optional `Scale`. -/
def afterScale (env : Env) (parsed : Status) (s : Server) : Server :=
  if parsed.ActiveVUs ≠ s.Engine.Status.ActiveVUs then
    { s with Engine := env.Scale parsed.ActiveVUs s.Engine,
             Calls := s.Calls ++ [Call.Scale parsed.ActiveVUs] }
  else s

/-- The response for the entry the loop stops at: its sample is refreshed from
its own sink, then it is encoded. -/
def metricResponse (env : Env) (c : Context) (e : Metric × Sink) : Context :=
  match env.MarshalMetric { e.1 with Sample := e.2.Format } with
  | .error err => c.AbortWithError 500 err
  | .ok data => c.Data 200 contentType data

/-! ## Interleaved handling of `PATCH /v1/status`

The handlers of concurrent requests share `s.Engine` without any lock.  Each
access of the `PATCH /v1/status` handler to the shared state is one atomic
step; an execution of several requests is a schedule, the list of the
requests that take the successive steps. -/

/-- Program points of the `PATCH /v1/status` handler, named after the access to
the shared state that the next step makes. -/
inductive PC
  | guard
  | decode
  | compare
  | scale
  | check
  | cancel
  | commit
  | respond
  | done
deriving DecidableEq, Repr

/-- A request to `PATCH /v1/status` being handled: its program point, its body,
the local variable `status` and its gin context. -/
structure Handling where
  pc : PC
  body : Bytes
  status : Status
  c : Context
deriving DecidableEq, Repr

/-- A request that has entered the handler, the error middleware having set the
content type; `status` holds no value yet. -/
def Handling.start (body : Bytes) : Handling :=
  { pc := PC.guard, body := body, status := { Running := false, ActiveVUs := 0 },
    c := Context.new.Header contentType }

/-- One step of a request on the shared server state.
`guard` is the read at line 65, `decode` the copy and decoding at lines 70 to 75,
`compare` the read at line 77, `scale` the call at line 78, `check` the read at
line 80, `cancel` the call at line 81, `commit` the write at line 83 and
`respond` the read and encoding at lines 85 to 90. -/
def step (env : Env) (s : Server) (h : Handling) : Server × Handling :=
  match h.pc with
  | PC.guard =>
    if !s.Engine.Status.Running then
      (s, { h with pc := PC.done,
                   c := h.c.AbortWithError 400 (errorsNew "Test is stopped") })
    else (s, { h with pc := PC.decode })
  | PC.decode =>
    match env.Unmarshal h.body s.Engine.Status with
    | .error err => (s, { h with pc := PC.done, c := h.c.AbortWithError 400 err })
    | .ok status => (s, { h with pc := PC.compare, status := status })
  | PC.compare =>
    if h.status.ActiveVUs ≠ s.Engine.Status.ActiveVUs then (s, { h with pc := PC.scale })
    else (s, { h with pc := PC.check })
  | PC.scale =>
    ({ s with Engine := env.Scale h.status.ActiveVUs s.Engine,
              Calls := s.Calls ++ [Call.Scale h.status.ActiveVUs] },
     { h with pc := PC.check })
  | PC.check =>
    if !s.Engine.Status.Running then (s, { h with pc := PC.cancel })
    else (s, { h with pc := PC.commit })
  | PC.cancel => ({ s with Calls := s.Calls ++ [Call.Cancel] }, { h with pc := PC.commit })
  | PC.commit =>
    ({ s with Engine := { s.Engine with Status := h.status } }, { h with pc := PC.respond })
  | PC.respond =>
    match env.MarshalStatus s.Engine.Status with
    | .error err => (s, { h with pc := PC.done, c := h.c.AbortWithError 500 err })
    | .ok data => (s, { h with pc := PC.done, c := h.c.Data 200 contentType data })
  | PC.done => (s, h)

/-- The request at position `i` takes one step; a position past the end is a no-op. -/
def stepAt (env : Env) : Nat → Server → List Handling → Server × List Handling
  | _, s, [] => (s, [])
  | 0, s, h :: hs => ((step env s h).1, (step env s h).2 :: hs)
  | i + 1, s, h :: hs => ((stepAt env i s hs).1, h :: (stepAt env i s hs).2)

/-- Execution of a schedule. -/
def run (env : Env) : List Nat → Server → List Handling → Server × List Handling
  | [], s, hs => (s, hs)
  | i :: sched, s, hs => run env sched (stepAt env i s hs).1 (stepAt env i s hs).2

/-- One for a request that has not yet passed line 81, zero afterwards. -/
def pending (h : Handling) : Nat :=
  match h.pc with
  | PC.commit | PC.respond | PC.done => 0
  | _ => 1

/-- Schedule of one request handled alone, to its end. -/
def soloSchedule : List Nat := List.replicate 8 0

/-- Schedule of three requests: each passes the guard, decodes and compares;
request 0 then checks and commits; requests 1 and 2 check and finish after it. -/
def raceSchedule : List Nat :=
  [0, 1, 2, 0, 1, 2, 0, 1, 2, 0, 0, 1, 1, 2, 2, 0, 1, 1, 2, 2]

/-! ## Sample collaborators used to evaluate the handlers on concrete requests -/

/-- A decoder that understands two documents and rejects every other body. -/
def demoUnmarshal (data : Bytes) (_status : Status) : Except GoError Status :=
  if data = "Running:false,ActiveVUs:10" then .ok { Running := false, ActiveVUs := 10 }
  else if data = "Running:true,ActiveVUs:10" then .ok { Running := true, ActiveVUs := 10 }
  else .error (errorsNew "invalid document")

/-- An encoder of statuses that always succeeds. -/
def demoMarshalStatus (st : Status) : Except GoError Bytes :=
  .ok (toString st.Running ++ "/" ++ toString st.ActiveVUs)

/-- Collaborators with a `Scale` that records the new count in the engine status
and encoders that always succeed. -/
def demoEnv : Env where
  Scale := fun n e => { e with Status := { e.Status with ActiveVUs := n } }
  Unmarshal := demoUnmarshal
  MarshalStatus := demoMarshalStatus
  MarshalInfo := fun i => .ok i.Data
  MarshalMetric := fun m => .ok (m.Name ++ "=" ++ m.Sample)
  MarshalMetrics := fun ms => .ok (String.intercalate "," (ms.map (fun m => m.Name)))
  jsonMarshal := fun d => String.intercalate ";" (d.Errors.map (fun e => e.Title))
  jsonNotFound := "Not Found"

/-- The collaborators of `demoEnv` with a status encoder that always fails. -/
def failEnv : Env :=
  { demoEnv with MarshalStatus := fun _ => .error (errorsNew "cannot encode") }

/-- A server whose engine has the given status, no metric registered and no
invocation logged. -/
def demoServer (running : Bool) (vus : Int) : Server :=
  { Engine := { Status := { Running := running, ActiveVUs := vus }, Metrics := [] },
    Info := { Data := "speedboat" },
    Calls := [] }

/-- A server with two registered metrics, `http_req_duration` and `vus`. -/
def metricsServer : Server :=
  { demoServer true 5 with
    Engine :=
      { Status := { Running := true, ActiveVUs := 5 },
        Metrics := [({ Name := "http_req_duration", Sample := "" }, { Format := "avg=12ms" }),
                    ({ Name := "vus", Sample := "" }, { Format := "5" })] } }

/-! ## Basic facts -/

theorem scaleArgs_append (xs ys : List Call) :
    scaleArgs (xs ++ ys) = scaleArgs xs ++ scaleArgs ys := by
  induction xs with
  | nil => rfl
  | cons x xs ih => cases x <;> simp [scaleArgs, ih]

theorem cancelCount_append (xs ys : List Call) :
    cancelCount (xs ++ ys) = cancelCount xs + cancelCount ys := by
  simp [cancelCount]

/-- When the engine is stopped the handler is a single `AbortWithError`. -/
theorem patchStatus_of_stopped (env : Env) (body : Bytes) (s : Server) (c : Context)
    (h : s.Engine.Status.Running = false) :
    patchStatus env body s c = (s, c.AbortWithError 400 (errorsNew "Test is stopped")) := by
  simp [patchStatus, h]

/-- When the decoder fails the handler is a single `AbortWithError`. -/
theorem patchStatus_of_decode_error (env : Env) (body : Bytes) (s : Server) (c : Context)
    (err : GoError) (hrun : s.Engine.Status.Running = true)
    (hdec : env.Unmarshal body s.Engine.Status = .error err) :
    patchStatus env body s c = (s, c.AbortWithError 400 err) := by
  simp [patchStatus, hrun, hdec]

/-- The server state that the handler leaves behind on a decoded body. -/
theorem patchStatus_server (env : Env) (body : Bytes) (s : Server) (c : Context)
    (parsed : Status) (hrun : s.Engine.Status.Running = true)
    (hdec : env.Unmarshal body s.Engine.Status = .ok parsed) :
    (patchStatus env body s c).1 =
      { Engine := { (afterScale env parsed s).Engine with Status := parsed },
        Info := s.Info,
        Calls := (afterScale env parsed s).Calls ++
          (if (afterScale env parsed s).Engine.Status.Running then [] else [Call.Cancel]) } := by
  simp only [patchStatus, hrun, hdec, afterScale]
  by_cases hv : parsed.ActiveVUs = s.Engine.Status.ActiveVUs
  · simp [hv, hrun]
    split <;> rfl
  · by_cases hr : (env.Scale parsed.ActiveVUs s.Engine).Status.Running = true
    · simp [hv, hr]
      split <;> rfl
    · simp [hv, hr]
      split <;> rfl

/-- The response that the handler writes on a decoded body: the encoding of the
parsed status, or the encoder's error with status 500. -/
theorem patchStatus_response (env : Env) (body : Bytes) (s : Server) (c : Context)
    (parsed : Status) (hrun : s.Engine.Status.Running = true)
    (hdec : env.Unmarshal body s.Engine.Status = .ok parsed) :
    (patchStatus env body s c).2 =
      match env.MarshalStatus parsed with
      | .error err => c.AbortWithError 500 err
      | .ok data => c.Data 200 contentType data := by
  simp only [patchStatus, hrun, hdec]
  cases hm : env.MarshalStatus parsed <;> simp [hm]

/-! ## PATCH /v1/status -/

/-- C1: when `Engine.Status.Running` is false, `PATCH /v1/status` sets status 400,
attaches the one error "Test is stopped", writes no body, leaves the server
(engine status and invocation log) as it was, and does the same for every
body; through the middleware chain the response is 400 with exactly that one
error attached. -/
theorem patchStatus_stopped_rejected (env : Env) (body : Bytes) (s : Server) (c : Context)
    (h : s.Engine.Status.Running = false) :
    (patchStatus env body s c).2.Writer.status = 400 ∧
    (patchStatus env body s c).2.Errors = c.Errors ++ [errorsNew "Test is stopped"] ∧
    (patchStatus env body s c).2.Writer.body = c.Writer.body ∧
    (patchStatus env body s c).1 = s ∧
    (patchStatus env body s c).1.Engine.Status = s.Engine.Status ∧
    (patchStatus env body s c).1.Calls = s.Calls ∧
    (∀ other : Bytes, patchStatus env other s c = patchStatus env body s c) ∧
    (serve env s ⟨Route.patchStatus, body⟩).1 = s ∧
    (serve env s ⟨Route.patchStatus, body⟩).2.Writer.status = 400 ∧
    (serve env s ⟨Route.patchStatus, body⟩).2.Errors = [errorsNew "Test is stopped"] := by
  have hp := patchStatus_of_stopped env
  refine ⟨?_, ?_, ?_, ?_, ?_, ?_, ?_, ?_, ?_, ?_⟩
  · rw [hp body s c h]; rfl
  · rw [hp body s c h]; rfl
  · rw [hp body s c h]; rfl
  · rw [hp body s c h]
  · rw [hp body s c h]
  · rw [hp body s c h]
  · intro other; rw [hp body s c h, hp other s c h]
  · simp [serve, jsonErrorsMiddleware, handler, hp body s _ h]
    split <;> rfl
  · simp [serve, jsonErrorsMiddleware, handler, hp body s _ h]
    split <;> rfl
  · simp [serve, jsonErrorsMiddleware, handler, hp body s _ h]
    split <;> rfl

/-- Witness of C1 on a stopped engine with 10 active VUs. -/
theorem patchStatus_stopped_rejected_witness :
    (demoServer false 10).Engine.Status.Running = false ∧
    (patchStatus demoEnv "Running:true,ActiveVUs:10" (demoServer false 10)
      Context.new).2.Writer.status = 400 ∧
    (patchStatus demoEnv "Running:true,ActiveVUs:10" (demoServer false 10)
      Context.new).1 = demoServer false 10 :=
  ⟨rfl,
   (patchStatus_stopped_rejected demoEnv "Running:true,ActiveVUs:10" (demoServer false 10)
      Context.new rfl).1,
   (patchStatus_stopped_rejected demoEnv "Running:true,ActiveVUs:10" (demoServer false 10)
      Context.new rfl).2.2.2.1⟩

/-- C2: when the engine is running and the decoder fails on the body,
`PATCH /v1/status` sets status 400, attaches the decoder's error, writes no
body, and leaves the server (engine status and invocation log) as it was. -/
theorem patchStatus_malformed_rejected (env : Env) (body : Bytes) (s : Server) (c : Context)
    (err : GoError) (hrun : s.Engine.Status.Running = true)
    (hdec : env.Unmarshal body s.Engine.Status = .error err) :
    (patchStatus env body s c).2.Writer.status = 400 ∧
    (patchStatus env body s c).2.Errors = c.Errors ++ [err] ∧
    (patchStatus env body s c).2.Writer.body = c.Writer.body ∧
    (patchStatus env body s c).1 = s ∧
    (patchStatus env body s c).1.Engine.Status = s.Engine.Status ∧
    (patchStatus env body s c).1.Calls = s.Calls := by
  rw [patchStatus_of_decode_error env body s c err hrun hdec]
  exact ⟨rfl, rfl, rfl, rfl, rfl, rfl⟩

/-- Witness of C2: a body the sample decoder rejects, on a running engine. -/
theorem patchStatus_malformed_rejected_witness :
    (demoServer true 5).Engine.Status.Running = true ∧
    demoEnv.Unmarshal "garbage" (demoServer true 5).Engine.Status
      = .error (errorsNew "invalid document") ∧
    (patchStatus demoEnv "garbage" (demoServer true 5) Context.new).2.Errors
      = Context.new.Errors ++ [errorsNew "invalid document"] ∧
    (patchStatus demoEnv "garbage" (demoServer true 5) Context.new).1 = demoServer true 5 :=
  ⟨rfl, rfl,
   (patchStatus_malformed_rejected demoEnv "garbage" (demoServer true 5) Context.new
      (errorsNew "invalid document") rfl rfl).2.1,
   (patchStatus_malformed_rejected demoEnv "garbage" (demoServer true 5) Context.new
      (errorsNew "invalid document") rfl rfl).2.2.2.1⟩

/-- On a decoded body the handler invokes `Cancel` exactly when the engine's own
status, read at line 80 after the optional `Scale`, is not running; the parsed
`Running` plays no part. -/
theorem patchStatus_cancelCount (env : Env) (body : Bytes) (s : Server) (c : Context)
    (parsed : Status) (hrun : s.Engine.Status.Running = true)
    (hdec : env.Unmarshal body s.Engine.Status = .ok parsed) :
    cancelCount (patchStatus env body s c).1.Calls =
      cancelCount s.Calls +
        (if (afterScale env parsed s).Engine.Status.Running then 0 else 1) := by
  rw [patchStatus_server env body s c parsed hrun hdec]
  simp only [cancelCount_append]
  have h1 : cancelCount (afterScale env parsed s).Calls = cancelCount s.Calls := by
    unfold afterScale
    split
    · simp [cancelCount]
    · rfl
  rw [h1]
  split <;> simp [cancelCount]

/-- With a `Scale` that leaves `Status.Running` alone, no `PATCH /v1/status`
invokes `Cancel`, whatever the body asks for. -/
theorem patchStatus_never_cancels (env : Env)
    (hscale : ∀ n e, (env.Scale n e).Status.Running = e.Status.Running)
    (body : Bytes) (s : Server) (c : Context) :
    cancelCount (patchStatus env body s c).1.Calls = cancelCount s.Calls := by
  cases hrun : s.Engine.Status.Running
  · rw [patchStatus_of_stopped env body s c hrun]
  · cases hdec : env.Unmarshal body s.Engine.Status with
    | error err => rw [patchStatus_of_decode_error env body s c err hrun hdec]
    | ok parsed =>
      rw [patchStatus_cancelCount env body s c parsed hrun hdec]
      have h : (afterScale env parsed s).Engine.Status.Running = true := by
        unfold afterScale
        split
        · simpa [hscale] using hrun
        · exact hrun
      simp [h]

/-- C3, evaluated on the scenario of the claim: the engine runs with 10 active
VUs and the body parses to `Running = false`, `ActiveVUs = 10`.  The handler
answers 200 and commits the stopped status, but it invokes neither `Scale` nor
`Cancel`: the log of invocations stays empty. -/
theorem patchStatus_stop_does_not_cancel :
    demoEnv.Unmarshal "Running:false,ActiveVUs:10" (demoServer true 10).Engine.Status
      = .ok { Running := false, ActiveVUs := 10 } ∧
    (patchStatus demoEnv "Running:false,ActiveVUs:10" (demoServer true 10)
      Context.new).2.Writer.status = 200 ∧
    (patchStatus demoEnv "Running:false,ActiveVUs:10" (demoServer true 10)
      Context.new).1.Engine.Status = { Running := false, ActiveVUs := 10 } ∧
    (patchStatus demoEnv "Running:false,ActiveVUs:10" (demoServer true 10)
      Context.new).1.Calls = [] ∧
    cancelCount (patchStatus demoEnv "Running:false,ActiveVUs:10" (demoServer true 10)
      Context.new).1.Calls = 0 := by
  refine ⟨rfl, ?_, ?_, ?_, ?_⟩ <;> rfl

/-- C4: on a running engine and a decoded body, `Scale` is invoked once, with the
parsed `ActiveVUs`, when that differs from the current `ActiveVUs`, and not at
all when they are equal.  The invocation acts on the engine as the request
found it, and the status is replaced afterwards: the final engine is the
result of `Scale` with its status overwritten by the parsed one. -/
theorem patchStatus_scale_once (env : Env) (body : Bytes) (s : Server) (c : Context)
    (parsed : Status) (hrun : s.Engine.Status.Running = true)
    (hdec : env.Unmarshal body s.Engine.Status = .ok parsed) :
    (parsed.ActiveVUs ≠ s.Engine.Status.ActiveVUs →
      scaleArgs (patchStatus env body s c).1.Calls
        = scaleArgs s.Calls ++ [parsed.ActiveVUs] ∧
      (patchStatus env body s c).1.Calls
        = s.Calls ++ [Call.Scale parsed.ActiveVUs] ++
          (if (env.Scale parsed.ActiveVUs s.Engine).Status.Running then []
           else [Call.Cancel]) ∧
      (patchStatus env body s c).1.Engine
        = { env.Scale parsed.ActiveVUs s.Engine with Status := parsed }) ∧
    (parsed.ActiveVUs = s.Engine.Status.ActiveVUs →
      scaleArgs (patchStatus env body s c).1.Calls = scaleArgs s.Calls ∧
      (patchStatus env body s c).1.Calls = s.Calls ∧
      (patchStatus env body s c).1.Engine = { s.Engine with Status := parsed }) := by
  rw [patchStatus_server env body s c parsed hrun hdec]
  constructor
  · intro hne
    have ha : afterScale env parsed s =
        { s with Engine := env.Scale parsed.ActiveVUs s.Engine,
                 Calls := s.Calls ++ [Call.Scale parsed.ActiveVUs] } := by
      simp [afterScale, hne]
    rw [ha]
    refine ⟨?_, rfl, rfl⟩
    simp only [scaleArgs_append]
    split <;> simp [scaleArgs]
  · intro heq
    have ha : afterScale env parsed s = s := by simp [afterScale, heq]
    rw [ha]
    simp [hrun]

/-- Witness of C4: the engine runs with 5 active VUs, the body asks for 10, and
the log holds the single invocation `Scale(10)`. -/
theorem patchStatus_scale_once_witness :
    (demoServer true 5).Engine.Status.Running = true ∧
    ((10 : Int) ≠ (demoServer true 5).Engine.Status.ActiveVUs) ∧
    (patchStatus demoEnv "Running:true,ActiveVUs:10" (demoServer true 5)
      Context.new).1.Calls = [Call.Scale 10] ∧
    scaleArgs (patchStatus demoEnv "Running:true,ActiveVUs:10" (demoServer true 5)
      Context.new).1.Calls = scaleArgs (demoServer true 5).Calls ++ [10] :=
  ⟨rfl, by decide, rfl,
   ((patchStatus_scale_once demoEnv "Running:true,ActiveVUs:10" (demoServer true 5)
      Context.new { Running := true, ActiveVUs := 10 } rfl rfl).1 (by decide)).1⟩

/-- C5: on a running engine and a decoded body, the engine status after the
handler is the parsed status, whatever `Scale` did; when the encoder succeeds
the response is 200 with the encoding of that status as its body, and when the
encoder fails the response is 500 with the encoder's error attached, the
parsed status staying committed. -/
theorem patchStatus_commits (env : Env) (body : Bytes) (s : Server) (c : Context)
    (parsed : Status) (hrun : s.Engine.Status.Running = true)
    (hdec : env.Unmarshal body s.Engine.Status = .ok parsed) :
    (patchStatus env body s c).1.Engine.Status = parsed ∧
    (∀ data, env.MarshalStatus parsed = .ok data →
      (patchStatus env body s c).2.Writer.status = 200 ∧
      (patchStatus env body s c).2.Writer.body = c.Writer.body ++ [data] ∧
      (patchStatus env body s c).2.Errors = c.Errors) ∧
    (∀ err, env.MarshalStatus parsed = .error err →
      (patchStatus env body s c).2.Writer.status = 500 ∧
      (patchStatus env body s c).2.Writer.body = c.Writer.body ∧
      (patchStatus env body s c).2.Errors = c.Errors ++ [err] ∧
      (patchStatus env body s c).1.Engine.Status = parsed) := by
  have hs : (patchStatus env body s c).1.Engine.Status = parsed := by
    rw [patchStatus_server env body s c parsed hrun hdec]
  refine ⟨hs, ?_, ?_⟩
  · intro data hm
    rw [patchStatus_response env body s c parsed hrun hdec, hm]
    exact ⟨rfl, rfl, rfl⟩
  · intro err hm
    refine ⟨?_, ?_, ?_, hs⟩ <;>
      rw [patchStatus_response env body s c parsed hrun hdec, hm] <;> rfl

/-- Witness of C5 with an encoder that succeeds: the parsed status is committed. -/
theorem patchStatus_commits_witness :
    (demoServer true 5).Engine.Status.Running = true ∧
    (patchStatus demoEnv "Running:true,ActiveVUs:10" (demoServer true 5)
      Context.new).1.Engine.Status = { Running := true, ActiveVUs := 10 } ∧
    (patchStatus failEnv "Running:true,ActiveVUs:10" (demoServer true 5)
      Context.new).2.Writer.status = 500 ∧
    (patchStatus failEnv "Running:true,ActiveVUs:10" (demoServer true 5)
      Context.new).1.Engine.Status = { Running := true, ActiveVUs := 10 } :=
  ⟨rfl,
   (patchStatus_commits demoEnv "Running:true,ActiveVUs:10" (demoServer true 5)
      Context.new { Running := true, ActiveVUs := 10 } rfl rfl).1,
   ((patchStatus_commits failEnv "Running:true,ActiveVUs:10" (demoServer true 5)
      Context.new { Running := true, ActiveVUs := 10 } rfl rfl).2.2
        (errorsNew "cannot encode") rfl).1,
   (patchStatus_commits failEnv "Running:true,ActiveVUs:10" (demoServer true 5)
      Context.new { Running := true, ActiveVUs := 10 } rfl rfl).1⟩

/-! ## Sequences of requests -/

/-- The error middleware hands back the server state its handler produced. -/
theorem jsonErrorsMiddleware_server (env : Env)
    (next : Server → Context → Server × Context) (s : Server) (c : Context) :
    (jsonErrorsMiddleware env next s c).1 = (next s (c.Header contentType)).1 := by
  simp only [jsonErrorsMiddleware]
  split <;> rfl

/-- Every handler other than `PATCH /v1/status` leaves the server state alone. -/
theorem handler_server_of_not_patch (env : Env) (req : Request) (s : Server) (c : Context)
    (h : req.route ≠ Route.patchStatus) : (handler env req s c).1 = s := by
  obtain ⟨route, body⟩ := req
  cases route with
  | ping => rfl
  | info => simp only [handler, getInfo]; split <;> rfl
  | error => rfl
  | getStatus => simp only [handler, getStatus]; split <;> rfl
  | patchStatus => exact absurd rfl h
  | metrics => simp only [handler, getMetrics]; split <;> rfl
  | metric id => rfl
  | noRoute => rfl

/-- On a stopped engine no request changes the server state. -/
theorem serve_server_of_stopped (env : Env) (s : Server) (req : Request)
    (h : s.Engine.Status.Running = false) : (serve env s req).1 = s := by
  rw [serve, jsonErrorsMiddleware_server]
  by_cases hp : req.route = Route.patchStatus
  · obtain ⟨route, body⟩ := req
    simp only at hp
    subst hp
    simp only [handler]
    rw [patchStatus_of_stopped env body s _ h]
  · exact handler_server_of_not_patch env req s _ hp

theorem serveAll_append (env : Env) (s : Server) (pre post : List Request) :
    serveAll env s (pre ++ post) =
      ((serveAll env (serveAll env s pre).1 post).1,
       (serveAll env s pre).2 ++ (serveAll env (serveAll env s pre).1 post).2) := by
  induction pre generalizing s with
  | nil => simp [serveAll]
  | cons req pre ih =>
    have h := ih (serve env s req).1
    show serveAll env s (req :: (pre ++ post)) = _
    simp only [serveAll]
    rw [h]
    rfl

/-- On a stopped engine a sequence of requests leaves the server state alone and
each request is answered as if it were the first. -/
theorem serveAll_of_stopped (env : Env) (s : Server) (reqs : List Request)
    (h : s.Engine.Status.Running = false) :
    serveAll env s reqs = (s, reqs.map (fun req => (serve env s req).2)) := by
  induction reqs with
  | nil => rfl
  | cons req reqs ih =>
    have h1 := serve_server_of_stopped env s req h
    simp only [serveAll, List.map_cons]
    rw [h1, ih]

/-- C6: over a sequence of API requests handled one after the other, once the
engine status has `Running = false` after some request, the server state
(engine status and log of `Scale` and `Cancel` invocations) after every later
request is the one at that point, each later request is answered as the
stopped server answers it, and that answer to `PATCH /v1/status` is 400 with
the error "Test is stopped", for every body. -/
theorem stopped_is_terminal (env : Env) (s0 : Server) (pre post : List Request)
    (h : (serveAll env s0 pre).1.Engine.Status.Running = false) :
    (serveAll env s0 (pre ++ post)).1 = (serveAll env s0 pre).1 ∧
    (serveAll env s0 (pre ++ post)).1.Engine.Status
      = (serveAll env s0 pre).1.Engine.Status ∧
    (serveAll env s0 (pre ++ post)).1.Calls = (serveAll env s0 pre).1.Calls ∧
    (serveAll env s0 (pre ++ post)).2
      = (serveAll env s0 pre).2 ++
        post.map (fun req => (serve env (serveAll env s0 pre).1 req).2) ∧
    (∀ body : Bytes,
      (serve env (serveAll env s0 pre).1 ⟨Route.patchStatus, body⟩).2.Writer.status = 400 ∧
      (serve env (serveAll env s0 pre).1 ⟨Route.patchStatus, body⟩).2.Errors
        = [errorsNew "Test is stopped"]) := by
  have hall := serveAll_of_stopped env (serveAll env s0 pre).1 post h
  have happ := serveAll_append env s0 pre post
  rw [hall] at happ
  refine ⟨?_, ?_, ?_, ?_, ?_⟩
  · rw [happ]
  · rw [happ]
  · rw [happ]
  · rw [happ]
  · intro body
    have hp := patchStatus_of_stopped env body (serveAll env s0 pre).1
      (Context.new.Header contentType) h
    constructor
    · simp [serve, jsonErrorsMiddleware, handler, hp]
      split <;> rfl
    · simp [serve, jsonErrorsMiddleware, handler, hp]
      split <;> rfl

/-- Witness of C6: a running engine is stopped by a first `PATCH`; a second
`PATCH`, a `GET` and a third `PATCH` follow and find the server unchanged. -/
theorem stopped_is_terminal_witness :
    (serveAll demoEnv (demoServer true 10)
      [⟨Route.patchStatus, "Running:false,ActiveVUs:10"⟩]).1.Engine.Status.Running = false ∧
    (serveAll demoEnv (demoServer true 10)
      ([⟨Route.patchStatus, "Running:false,ActiveVUs:10"⟩] ++
        [⟨Route.patchStatus, "Running:true,ActiveVUs:10"⟩, ⟨Route.getStatus, ""⟩,
         ⟨Route.patchStatus, "garbage"⟩])).1
      = (serveAll demoEnv (demoServer true 10)
          [⟨Route.patchStatus, "Running:false,ActiveVUs:10"⟩]).1 :=
  ⟨rfl,
   (stopped_is_terminal demoEnv (demoServer true 10)
      [⟨Route.patchStatus, "Running:false,ActiveVUs:10"⟩]
      [⟨Route.patchStatus, "Running:true,ActiveVUs:10"⟩, ⟨Route.getStatus, ""⟩,
       ⟨Route.patchStatus, "garbage"⟩] rfl).1⟩

/-! ## GET /v1/status -/

/-- C9: `GET /v1/status` leaves the server state (engine status and log of
invocations) as it was, with or without the middleware, so any number of
consecutive `GET /v1/status` requests, whatever their bodies, leave it as it
was and all receive the response of the first: same status code, same body. -/
theorem getStatus_idempotent (env : Env) (s : Server) (c : Context) (reqs : List Request)
    (h : ∀ req ∈ reqs, req.route = Route.getStatus) :
    (getStatus env s c).1 = s ∧
    (getStatus env s c).1.Engine.Status = s.Engine.Status ∧
    (getStatus env s c).1.Calls = s.Calls ∧
    serveAll env s reqs
      = (s, reqs.map (fun _ => (serve env s ⟨Route.getStatus, ""⟩).2)) := by
  have hg : (getStatus env s c).1 = s := by
    simp only [getStatus]; split <;> rfl
  refine ⟨hg, by rw [hg], by rw [hg], ?_⟩
  induction reqs with
  | nil => rfl
  | cons req reqs ih =>
    have hr : req.route = Route.getStatus := h req (List.mem_cons_self _ _)
    have hreq : serve env s req = serve env s ⟨Route.getStatus, ""⟩ := by
      obtain ⟨route, body⟩ := req
      simp only at hr
      subst hr
      rfl
    have h1 : (serve env s req).1 = s := by
      rw [serve, jsonErrorsMiddleware_server]
      exact handler_server_of_not_patch env req s _ (by rw [hr]; decide)
    simp only [serveAll, List.map_cons]
    rw [h1, ih (fun r hr' => h r (List.mem_cons_of_mem _ hr')), hreq]

/-- Witness of C9: three `GET /v1/status` requests on a running engine. -/
theorem getStatus_idempotent_witness :
    (∀ req ∈ [(⟨Route.getStatus, ""⟩ : Request), ⟨Route.getStatus, "x"⟩,
        ⟨Route.getStatus, ""⟩], req.route = Route.getStatus) ∧
    serveAll demoEnv (demoServer true 5)
        [⟨Route.getStatus, ""⟩, ⟨Route.getStatus, "x"⟩, ⟨Route.getStatus, ""⟩]
      = (demoServer true 5,
         [(⟨Route.getStatus, ""⟩ : Request), ⟨Route.getStatus, "x"⟩,
          ⟨Route.getStatus, ""⟩].map
           (fun _ => (serve demoEnv (demoServer true 5) ⟨Route.getStatus, ""⟩).2)) :=
  ⟨by simp,
   (getStatus_idempotent demoEnv (demoServer true 5) Context.new
      [⟨Route.getStatus, ""⟩, ⟨Route.getStatus, "x"⟩, ⟨Route.getStatus, ""⟩]
      (by simp)).2.2.2⟩

/-! ## GET /v1/metrics/:id -/

/-- The loop either visits every entry without a match and ends in the 404, or
stops at an entry whose name is the id and answers with that entry. -/
theorem findMetric_spec (env : Env) (id : String) (c : Context) (ms : List (Metric × Sink)) :
    ((∀ e ∈ ms, e.1.Name ≠ id) ∧
      findMetric env id c ms = c.AbortWithError 404 (errorsNew "Metric not found")) ∨
    (∃ e ∈ ms, e.1.Name = id ∧ findMetric env id c ms = metricResponse env c e) := by
  induction ms with
  | nil => exact Or.inl ⟨by simp, rfl⟩
  | cons e ms ih =>
    obtain ⟨metric, sink⟩ := e
    by_cases hn : metric.Name = id
    · refine Or.inr ⟨(metric, sink), List.mem_cons_self _ _, hn, ?_⟩
      simp only [findMetric, metricResponse, hn, ne_eq, not_true_eq_false, if_false]
    · have hstep : findMetric env id c ((metric, sink) :: ms) = findMetric env id c ms := by
        simp [findMetric, hn]
      rw [hstep]
      rcases ih with ⟨hall, hres⟩ | ⟨e, he, hname, hres⟩
      · refine Or.inl ⟨?_, hres⟩
        intro e he
        rcases List.mem_cons.mp he with rfl | he
        · exact hn
        · exact hall e he
      · exact Or.inr ⟨e, List.mem_cons_of_mem _ he, hname, hres⟩

theorem metricResponse_status_ne (env : Env) (c : Context) (e : Metric × Sink) :
    (metricResponse env c e).Writer.status ≠ 404 := by
  unfold metricResponse
  split <;> simp [Context.AbortWithError, Context.Data]

/-- C7: with an encoder that succeeds, `GET /v1/metrics/:id` answers 200 exactly
when some registered metric has the id as its name, and then the body is the
encoding of a registered metric whose `Name` equals the id and whose `Sample`
is the value of that metric's own sink; it answers 404, with the one error
"Metric not found" attached and no body, exactly when no registered metric
has the id as its name.  The server state is left alone. -/
theorem getMetric_exact (env : Env) (id : String) (s : Server) (c : Context)
    (henc : ∀ m, ∃ data, env.MarshalMetric m = .ok data) :
    (getMetric env id s c).1 = s ∧
    ((getMetric env id s c).2.Writer.status = 200 ↔
      ∃ e ∈ s.Engine.Metrics, e.1.Name = id) ∧
    ((getMetric env id s c).2.Writer.status = 200 →
      ∃ e ∈ s.Engine.Metrics, e.1.Name = id ∧
        ∃ data, env.MarshalMetric { Name := e.1.Name, Sample := e.2.Format } = .ok data ∧
          (getMetric env id s c).2 = c.Data 200 contentType data) ∧
    ((getMetric env id s c).2.Writer.status = 404 ↔
      ∀ e ∈ s.Engine.Metrics, e.1.Name ≠ id) ∧
    ((∀ e ∈ s.Engine.Metrics, e.1.Name ≠ id) →
      (getMetric env id s c).2 = c.AbortWithError 404 (errorsNew "Metric not found") ∧
      (getMetric env id s c).2.Errors = c.Errors ++ [errorsNew "Metric not found"] ∧
      (getMetric env id s c).2.Writer.body = c.Writer.body) := by
  have hok : ∀ e : Metric × Sink, ∃ data,
      env.MarshalMetric { Name := e.1.Name, Sample := e.2.Format } = .ok data ∧
      metricResponse env c e = c.Data 200 contentType data := by
    intro e
    obtain ⟨data, hd⟩ := henc { Name := e.1.Name, Sample := e.2.Format }
    exact ⟨data, hd, by simp only [metricResponse]; rw [hd]⟩
  have hspec := findMetric_spec env id c s.Engine.Metrics
  simp only [getMetric]
  rcases hspec with ⟨hall, hres⟩ | ⟨e, he, hname, hres⟩
  · refine ⟨trivial, ?_, ?_, ?_, ?_⟩
    · rw [hres]
      constructor
      · intro h; simp [Context.AbortWithError] at h
      · rintro ⟨e, he, hname⟩; exact absurd hname (hall e he)
    · rw [hres]
      intro h; simp [Context.AbortWithError] at h
    · rw [hres]
      exact ⟨fun _ => hall, fun _ => rfl⟩
    · intro _
      rw [hres]
      exact ⟨rfl, rfl, rfl⟩
  · obtain ⟨data, hd, hresp⟩ := hok e
    refine ⟨trivial, ?_, ?_, ?_, ?_⟩
    · rw [hres, hresp]
      exact ⟨fun _ => ⟨e, he, hname⟩, fun _ => rfl⟩
    · intro _
      exact ⟨e, he, hname, data, hd, by rw [hres, hresp]⟩
    · rw [hres]
      constructor
      · intro h; exact absurd h (metricResponse_status_ne env c e)
      · intro hall; exact absurd hname (hall e he)
    · intro hall; exact absurd hname (hall e he)

/-- Witness of C7: the id `http`, which only begins the name of a registered
metric, is answered 404, and the id `vus` is answered 200. -/
theorem getMetric_exact_witness :
    (∀ m, ∃ data, demoEnv.MarshalMetric m = .ok data) ∧
    (getMetric demoEnv "http" metricsServer Context.new).2.Writer.status = 404 ∧
    ((getMetric demoEnv "vus" metricsServer Context.new).2.Writer.status = 200 ↔
      ∃ e ∈ metricsServer.Engine.Metrics, e.1.Name = "vus") :=
  ⟨fun m => ⟨_, rfl⟩,
   (getMetric_exact demoEnv "http" metricsServer Context.new (fun m => ⟨_, rfl⟩)).2.2.2.1.mpr
     (by decide),
   (getMetric_exact demoEnv "vus" metricsServer Context.new (fun m => ⟨_, rfl⟩)).2.1⟩

/-! ## The error middleware -/

theorem errorDocument_foldl (errs : List GoError) (acc : ErrorResponse) :
    (errs.foldl (fun errors err =>
        ({ Errors := errors.Errors ++ [{ Title := err.Error }] } : ErrorResponse)) acc).Errors
      = acc.Errors ++ errs.map (fun err => ({ Title := err.Error } : Error)) := by
  induction errs generalizing acc with
  | nil => simp
  | cons e errs ih => simp [List.foldl, ih]

/-- The envelope lists the attached errors one for one, in the same order. -/
theorem errorDocument_errors (errs : List GoError) :
    (errorDocument errs).Errors = errs.map (fun err => ({ Title := err.Error } : Error)) := by
  simp [errorDocument, errorDocument_foldl]

/-- C8: after the downstream handler returns, `jsonErrorsMiddleware` writes to the
body if and only if the handler attached at least one error.  What it writes
is the encoding of an envelope with as many entries as attached errors, the
i-th entry's title being the message of the i-th error, and the status code
stays the one the handler set.  With no error attached the handler's context
(status, headers, body) is passed through as it is; the server state is the
handler's in both cases. -/
theorem jsonErrorsMiddleware_envelope (env : Env)
    (next : Server → Context → Server × Context) (s : Server) (c : Context) :
    (jsonErrorsMiddleware env next s c).1 = (next s (c.Header contentType)).1 ∧
    ((next s (c.Header contentType)).2.Errors = [] →
      (jsonErrorsMiddleware env next s c).2 = (next s (c.Header contentType)).2) ∧
    ((next s (c.Header contentType)).2.Errors ≠ [] →
      (jsonErrorsMiddleware env next s c).2.Writer.body
        = (next s (c.Header contentType)).2.Writer.body ++
          [env.jsonMarshal (errorDocument (next s (c.Header contentType)).2.Errors)] ∧
      (jsonErrorsMiddleware env next s c).2.Writer.status
        = (next s (c.Header contentType)).2.Writer.status ∧
      (jsonErrorsMiddleware env next s c).2.Errors
        = (next s (c.Header contentType)).2.Errors) ∧
    ((jsonErrorsMiddleware env next s c).2.Writer.body
        ≠ (next s (c.Header contentType)).2.Writer.body ↔
      (next s (c.Header contentType)).2.Errors ≠ []) ∧
    (errorDocument (next s (c.Header contentType)).2.Errors).Errors.length
      = (next s (c.Header contentType)).2.Errors.length ∧
    (∀ i : Nat,
      ((errorDocument (next s (c.Header contentType)).2.Errors).Errors[i]?).map
          (fun e => e.Title)
        = ((next s (c.Header contentType)).2.Errors[i]?).map (fun err => err.Error)) := by
  have hmw : (next s (c.Header contentType)).2.Errors ≠ [] →
      jsonErrorsMiddleware env next s c =
        ((next s (c.Header contentType)).1,
         (next s (c.Header contentType)).2.Data
           (next s (c.Header contentType)).2.Writer.status contentType
           (env.jsonMarshal (errorDocument (next s (c.Header contentType)).2.Errors))) := by
    intro hne
    have hlen : (next s (c.Header contentType)).2.Errors.length > 0 :=
      List.length_pos.mpr hne
    simp only [jsonErrorsMiddleware]
    split
    · rfl
    · contradiction
  have hpass : (next s (c.Header contentType)).2.Errors = [] →
      jsonErrorsMiddleware env next s c = next s (c.Header contentType) := by
    intro he
    simp [jsonErrorsMiddleware, he]
  refine ⟨jsonErrorsMiddleware_server env next s c, ?_, ?_, ?_, ?_, ?_⟩
  · intro he; rw [hpass he]
  · intro hne
    rw [hmw hne]
    exact ⟨rfl, rfl, rfl⟩
  · constructor
    · intro hb he
      exact hb (by rw [hpass he])
    · intro hne
      rw [hmw hne]
      simp [Context.Data]
  · rw [errorDocument_errors, List.length_map]
  · intro i
    rw [errorDocument_errors]
    simp [List.getElem?_map, Option.map_map, Function.comp_def]

/-! ## Interleaved requests -/

/-- A request handled alone, step by step, ends in the state and with the
response of the handler `patchStatus`. -/
theorem run_solo_eq_patchStatus (env : Env) (body : Bytes) (s : Server) :
    (run env soloSchedule s [Handling.start body]).1
      = (patchStatus env body s (Context.new.Header contentType)).1 ∧
    (run env soloSchedule s [Handling.start body]).2.map (fun h => (h.pc, h.c))
      = [(PC.done, (patchStatus env body s (Context.new.Header contentType)).2)] := by
  cases hrun : s.Engine.Status.Running
  · simp [soloSchedule, List.replicate, run, stepAt, step, Handling.start, patchStatus, hrun]
  · cases hdec : env.Unmarshal body s.Engine.Status with
    | error err =>
      simp [soloSchedule, List.replicate, run, stepAt, step, Handling.start, patchStatus,
        hrun, hdec]
    | ok parsed =>
      by_cases hv : parsed.ActiveVUs = s.Engine.Status.ActiveVUs
      · cases hm : env.MarshalStatus parsed <;>
          simp [soloSchedule, List.replicate, run, stepAt, step, Handling.start, patchStatus,
            hrun, hdec, hv, hm]
      · cases hr : (env.Scale parsed.ActiveVUs s.Engine).Status.Running <;>
          cases hm : env.MarshalStatus parsed <;>
          simp [soloSchedule, List.replicate, run, stepAt, step, Handling.start, patchStatus,
            hrun, hdec, hv, hm, hr]

/-- A step invokes `Cancel` only from the program point `cancel`, which it leaves. -/
theorem step_pending (env : Env) (s : Server) (h : Handling) :
    cancelCount (step env s h).1.Calls + pending (step env s h).2
      ≤ cancelCount s.Calls + pending h := by
  obtain ⟨pc, body, status, c⟩ := h
  cases pc <;> simp only [step, pending]
  all_goals first
    | (split <;> simp [cancelCount, pending])
    | simp [cancelCount, pending]

theorem stepAt_pending (env : Env) (i : Nat) (s : Server) (hs : List Handling) :
    cancelCount (stepAt env i s hs).1.Calls + ((stepAt env i s hs).2.map pending).sum
      ≤ cancelCount s.Calls + (hs.map pending).sum := by
  induction hs generalizing i with
  | nil => simp [stepAt]
  | cons h hs ih =>
    cases i with
    | zero =>
      have := step_pending env s h
      simp only [stepAt, List.map_cons, List.sum_cons]
      omega
    | succ i =>
      have := ih i
      simp only [stepAt, List.map_cons, List.sum_cons]
      omega

theorem run_pending (env : Env) (sched : List Nat) (s : Server) (hs : List Handling) :
    cancelCount (run env sched s hs).1.Calls + ((run env sched s hs).2.map pending).sum
      ≤ cancelCount s.Calls + (hs.map pending).sum := by
  induction sched generalizing s hs with
  | nil => simp [run]
  | cons i sched ih =>
    have h1 := stepAt_pending env i s hs
    have h2 := ih (stepAt env i s hs).1 (stepAt env i s hs).2
    simp only [run]
    omega

theorem sum_pending_start (bodies : List Bytes) :
    ((bodies.map Handling.start).map pending).sum = bodies.length := by
  induction bodies with
  | nil => rfl
  | cons b bodies ih =>
    simp only [List.map_cons, List.sum_cons, List.length_cons, ih]
    simp [pending, Handling.start]
    omega

/-- C10, as the handler behaves: when N requests to `PATCH /v1/status` are
handled concurrently, under every interleaving of their steps over the shared
server state `Cancel` is invoked at most N times in total. -/
theorem concurrent_cancel_at_most_once_each (env : Env) (s : Server) (bodies : List Bytes)
    (sched : List Nat) :
    cancelCount (run env sched s (bodies.map Handling.start)).1.Calls
      ≤ cancelCount s.Calls + bodies.length := by
  have h := run_pending env sched s (bodies.map Handling.start)
  rw [sum_pending_start] at h
  omega

/-- C10 fails in both directions.  One request that stops a running engine,
handled alone, finishes with 200 and `Cancel` never invoked.  Three such
requests that all pass the guard before the first of them commits finish
with 200 each and `Cancel` invoked twice. -/
theorem concurrent_cancel_not_once :
    (run demoEnv soloSchedule (demoServer true 10)
        [Handling.start "Running:false,ActiveVUs:10"]).2.map
        (fun h => (h.pc, h.c.Writer.status)) = [(PC.done, 200)] ∧
    cancelCount (run demoEnv soloSchedule (demoServer true 10)
        [Handling.start "Running:false,ActiveVUs:10"]).1.Calls = 0 ∧
    (run demoEnv raceSchedule (demoServer true 10)
        [Handling.start "Running:false,ActiveVUs:10",
         Handling.start "Running:false,ActiveVUs:10",
         Handling.start "Running:false,ActiveVUs:10"]).2.map
        (fun h => (h.pc, h.c.Writer.status)) = [(PC.done, 200), (PC.done, 200), (PC.done, 200)] ∧
    cancelCount (run demoEnv raceSchedule (demoServer true 10)
        [Handling.start "Running:false,ActiveVUs:10",
         Handling.start "Running:false,ActiveVUs:10",
         Handling.start "Running:false,ActiveVUs:10"]).1.Calls = 2 := by
  refine ⟨?_, ?_, ?_, ?_⟩ <;> rfl

end Api
